import Mathlib

/-
Verification of the KNUE meal backend (src/app.py) against its
natural-language specification.

Python strings are modelled as lists of unicode characters (`Str`).
Each definition below is a direct translation of the function of the
same name in src/app.py; modelling choices (e.g. the lxml tree and the
XPath engine, which are external collaborators per the spec) are noted
at the definition that makes them.
-/

set_option autoImplicit false

namespace KnueMeal

/-- A Python `str` is modelled as a list of unicode characters. -/
abbrev Str := List Char

/-- The character class matched by Python's `\s` (and stripped by
`str.strip()`): ASCII whitespace, the C1 separators, NEL, NBSP and the
Unicode space characters. -/
def isSpaceChar (c : Char) : Bool :=
  c == ' ' || c == '\t' || c == '\n' || c == '\r' || c == '\x0b' || c == '\x0c'
  || c == '\x1c' || c == '\x1d' || c == '\x1e' || c == '\x1f'
  || c == '\x85' || c == '\xa0' || c == ' '
  || (decide (0x2000 ≤ c.toNat) && decide (c.toNat ≤ 0x200a))
  || c == ' ' || c == ' ' || c == ' ' || c == ' ' || c == '　'

/-- Python `s.lstrip()` restricted to what the code needs: drop leading
whitespace. -/
def skipSpaces (s : Str) : Str :=
  s.dropWhile isSpaceChar

/-- Python `s.strip()`: drop whitespace from both ends. -/
def stripChars (s : Str) : Str :=
  ((s.dropWhile isSpaceChar).reverse.dropWhile isSpaceChar).reverse

/-- Python `s.split("\n")`: split on every newline, keeping empty
segments (so the result is never the empty list). -/
def splitNl : Str → List Str
  | [] => [[]]
  | c :: rest =>
    if c = '\n' then [] :: splitNl rest
    else
      match splitNl rest with
      | [] => [[c]]
      | h :: t => (c :: h) :: t

/-- Python `s.replace("\xa0", " ")`: NBSP becomes an ordinary space. -/
def replaceNbsp (s : Str) : Str :=
  s.map (fun c => if c = '\xa0' then ' ' else c)

/-- ASCII lowercasing, modelling Python `str.lower()` on the ASCII
tokens this program compares (`mon` … `sun`). -/
def asciiLower (s : Str) : Str :=
  s.map (fun c =>
    if decide ('A' ≤ c) && decide (c ≤ 'Z') then Char.ofNat (c.toNat + 32) else c)

/-- Helper for `re.sub(r"\s+", " ", s)`: the flag records whether the
scanner is inside a whitespace run (which has already emitted its one
space). -/
def collapseSpacesAux : Bool → Str → Str
  | _, [] => []
  | inRun, c :: rest =>
    if isSpaceChar c then
      if inRun then collapseSpacesAux true rest
      else ' ' :: collapseSpacesAux true rest
    else c :: collapseSpacesAux false rest

/-- `re.sub(r"\s+", " ", s)`: collapse every maximal whitespace run to a
single space. -/
def collapseSpaces (s : Str) : Str :=
  collapseSpacesAux false s

/-- `normalize_space` (src/app.py line 118): collapse whitespace runs,
then strip. -/
def normalize_space (s : Str) : Str :=
  stripChars (collapseSpaces s)

/-- Python `c.isdigit()` as used by `\d` for the ASCII digits appearing
in the scraped pages. -/
def isDigit (c : Char) : Bool :=
  decide ('0' ≤ c) && decide (c ≤ '9')

/-- Numeric value of an ASCII digit. -/
def digitVal (c : Char) : Nat :=
  c.toNat - ('0').toNat

/-- Consume exactly one regex-literal character. -/
def expectChar (ch : Char) : Str → Option Str
  | [] => none
  | c :: rest => if c = ch then some rest else none

/-- Consume `\d{1,2}` greedily, returning its value and the rest.
Greediness is equivalent to the regex here because in every use the
next pattern atom (`\s*` then a literal) can never start with a digit. -/
def takeDigits12 : Str → Option (Nat × Str)
  | [] => none
  | c :: rest =>
    if isDigit c then
      match rest with
      | c2 :: rest2 =>
        if isDigit c2 then some (10 * digitVal c + digitVal c2, rest2)
        else some (digitVal c, rest)
      | [] => some (digitVal c, [])
    else none

/-- Consume `\d{2}` (exactly two digits). -/
def dropDigits2 : Str → Option Str
  | c1 :: c2 :: rest => if isDigit c1 && isDigit c2 then some rest else none
  | _ => none

/-- Consume `\d{1,2}\s*:\s*\d{2}` (one hour:minute group of
`_TIME_RANGE_RE`, src/app.py lines 160-169). -/
def afterColonPair (s : Str) : Option Str :=
  match takeDigits12 s with
  | none => none
  | some (_, s1) =>
    match expectChar ':' (skipSpaces s1) with
    | none => none
    | some s2 => dropDigits2 (skipSpaces s2)

/-- Consume the optional `[\[\(]?` opening bracket. -/
def dropOpenBracket : Str → Str
  | [] => []
  | c :: rest => if c == '[' || c == '(' then rest else c :: rest

/-- Consume the optional `[\]\)]?` closing bracket. -/
def dropCloseBracket : Str → Str
  | [] => []
  | c :: rest => if c == ']' || c == ')' then rest else c :: rest

/-- `_TIME_RANGE_RE.match(line)` viewed as a whole-line test
(src/app.py lines 160-169): `^\s*[\[\(]?\s*\d{1,2}\s*:\s*\d{2}\s*~\s*
\d{1,2}\s*:\s*\d{2}\s*[\]\)]?\s*$`.  The regex is deterministic (no
atom boundary is ambiguous), so a straight-line scanner is faithful. -/
def matchesTimeRange (line : Str) : Bool :=
  let s := skipSpaces (dropOpenBracket (skipSpaces line))
  match afterColonPair s with
  | none => false
  | some s1 =>
    match expectChar '~' (skipSpaces s1) with
    | none => false
    | some s2 =>
      match afterColonPair (skipSpaces s2) with
      | none => false
      | some s3 => (skipSpaces (dropCloseBracket (skipSpaces s3))).isEmpty

/-- `drop_meaningless_first_line` (src/app.py lines 172-184): strip the
first line when the whole line is a time range. -/
def drop_meaningless_first_line (lines : List Str) : List Str :=
  match lines with
  | [] => []
  | first :: rest => if matchesTimeRange first then rest else first :: rest

/-- Try the date regex `(\d{4})\s*년\s*(\d{1,2})\s*월\s*(\d{1,2})\s*일`
anchored at the start of `s` (src/app.py line 148). -/
def matchKDateAt (s : Str) : Option (Nat × Nat × Nat) :=
  match s with
  | d1 :: d2 :: d3 :: d4 :: s0 =>
    if isDigit d1 && isDigit d2 && isDigit d3 && isDigit d4 then
      let yy := ((digitVal d1 * 10 + digitVal d2) * 10 + digitVal d3) * 10 + digitVal d4
      match expectChar '년' (skipSpaces s0) with
      | none => none
      | some s1 =>
        match takeDigits12 (skipSpaces s1) with
        | none => none
        | some (mm, s2) =>
          match expectChar '월' (skipSpaces s2) with
          | none => none
          | some s3 =>
            match takeDigits12 (skipSpaces s3) with
            | none => none
            | some (dd, s4) =>
              match expectChar '일' (skipSpaces s4) with
              | none => none
              | some _ => some (yy, mm, dd)
    else none
  | _ => none

/-- `re.search` for the date pattern: try each start position from the
left, returning the leftmost match. -/
def searchKoreanDate (s : Str) : Option (Nat × Nat × Nat) :=
  match matchKDateAt s with
  | some r => some r
  | none =>
    match s with
    | [] => none
    | _ :: rest => searchKoreanDate rest

/-- Gregorian leap year, as `datetime.date` uses. -/
def isLeap (y : Nat) : Bool :=
  y % 4 == 0 && (y % 100 != 0 || y % 400 == 0)

/-- Days in a month, as `datetime.date` validates. -/
def daysInMonth (y m : Nat) : Nat :=
  if m = 2 then (if isLeap y then 29 else 28)
  else if m = 4 || m = 6 || m = 9 || m = 11 then 30
  else 31

/-- `datetime.date(y, m, d)` succeeds exactly on these triples
(`MINYEAR = 1`, `MAXYEAR = 9999`). -/
def isValidDate (y m d : Nat) : Bool :=
  1 ≤ y && y ≤ 9999 && 1 ≤ m && m ≤ 12 && 1 ≤ d && d ≤ daysInMonth y m

/-- Decimal rendering of a natural number. -/
def natStr (n : Nat) : Str :=
  (Nat.repr n).data

/-- Python `f"{n:0wd}"`: zero-pad to width `w`. -/
def padZ (w n : Nat) : Str :=
  List.replicate (w - (natStr n).length) ('0') ++ natStr n

/-- `f"{yy:04d}-{mm:02d}-{dd:02d}"`. -/
def formatDate (y m d : Nat) : Str :=
  padZ 4 y ++ [('-')] ++ padZ 2 m ++ [('-')] ++ padZ 2 d

/-- `parse_b_date_from_h3` (src/app.py lines 143-156): regex-search the
heading for a Korean date, validate it via `datetime.date`, and format
it zero-padded; `none` on regex failure or calendar failure. -/
def parse_b_date_from_h3 (h3_text : Str) : Option Str :=
  match searchKoreanDate h3_text with
  | none => none
  | some (yy, mm, dd) =>
    if isValidDate yy mm dd then some (formatDate yy mm dd) else none

/-- An lxml element node.  `tag` is `none` for nodes whose tag is not a
string (comments, processing instructions), matching the
`isinstance(child.tag, str)` guard in the code; `text` is the text
immediately inside the element, `tail` the text trailing it inside its
parent (both `Optional[str]`). -/
inductive Elem : Type where
  | mk : Option Str → Option Str → List Elem → Option Str → Elem

def Elem.tag : Elem → Option Str
  | .mk t _ _ _ => t

def Elem.text : Elem → Option Str
  | .mk _ x _ _ => x

def Elem.children : Elem → List Elem
  | .mk _ _ cs _ => cs

def Elem.tail : Elem → Option Str
  | .mk _ _ _ tl => tl

/-- `isinstance(child.tag, str) and child.tag.lower() == "br"`. -/
def isBrElem (c : Elem) : Bool :=
  match c.tag with
  | some t => asciiLower t == ("br").data
  | none => false

/-- Python `if s: parts.append(s)` on an `Optional[str]`: contributes
the string only when it is neither `None` nor empty. -/
def optPart : Option Str → List Str
  | none => []
  | some s => if s = [] then [] else [s]

/-- The token list a single direct child contributes in the shared walk
of `extract_td_lines_preserve_br` and `extract_text_preserve_br`
(src/app.py lines 66-74 and 130-138): a newline for a break element,
then the child's own text, then its tail. -/
def childParts (c : Elem) : List Str :=
  (if isBrElem c then [[('\n' : Char)]] else []) ++ optPart c.text ++ optPart c.tail

/-- The full `parts` list of those two walks: the element's own leading
text, then each direct child's contribution in document order. -/
def mixedParts (e : Elem) : List Str :=
  optPart e.text ++ e.children.flatMap childParts

/-- Shared line cleanup: split on newlines, strip each segment, keep the
non-empty ones (src/app.py lines 77-78 and 244). -/
def cleanupLines (s : Str) : List Str :=
  ((splitNl s).map stripChars).filter (fun l => l ≠ [])

/-- `extract_td_lines_preserve_br` (src/app.py lines 57-78). -/
def extract_td_lines_preserve_br (td : Elem) : List Str :=
  cleanupLines (replaceNbsp ((mixedParts td).flatten))

/-- `extract_text_preserve_br` (src/app.py lines 122-140): same walk,
but returning the joined, NBSP-normalized, stripped string. -/
def extract_text_preserve_br (node : Elem) : Str :=
  stripChars (replaceNbsp ((mixedParts node).flatten))

/-- Helper giving an element's `tail` as a plain string. -/
def tailStr (c : Elem) : Str :=
  match c.tail with
  | none => []
  | some s => s

mutual

/-- lxml `node.text_content()`: all text inside the node, in document
order (own text, then recursively each child followed by its tail). -/
def textContent : Elem → Str
  | .mk _ tx cs _ =>
    (match tx with
     | none => []
     | some s => s) ++ textContentList cs

def textContentList : List Elem → Str
  | [] => []
  | c :: rest => textContent c ++ tailStr c ++ textContentList rest

end

/-- Bool test that `pat` is an initial segment of the second list. -/
def startsW : Str → Str → Bool
  | [], _ => true
  | _ :: _, [] => false
  | p :: ps, c :: cs => p == c && startsW ps cs

/-- Bool test that `pat` occurs contiguously somewhere in the second
list (Python `pat in s`). -/
def containsSub (pat : Str) : Str → Bool
  | [] => startsW pat []
  | c :: rest => startsW pat (c :: rest) || containsSub pat rest

/-- Leftmost, non-overlapping removal of every `/tbody` occurrence;
the fuel (always instantiated to the string length, which bounds the
number of scan steps) keeps the recursion structural. -/
def removeTbodyFuel : Nat → Str → Str
  | 0, s => s
  | _, [] => []
  | fuel + 1, c :: rest =>
    if startsW (("/tbody").data) (c :: rest) then removeTbodyFuel fuel (rest.drop 5)
    else c :: removeTbodyFuel fuel rest

/-- `xpath_without_tbody` (src/app.py lines 46-47):
`xpath.replace("/tbody", "")`, removing every occurrence. -/
def xpath_without_tbody (s : Str) : Str :=
  removeTbodyFuel s.length s

/-- `extract_by_xpath` (src/app.py lines 50-54).  The lxml XPath engine
is an external collaborator; for a fixed tree, `tree.xpath` is modelled
as an abstract function `xeval` from expression strings to node
lists — quantifying over `xeval` quantifies over trees. -/
def extract_by_xpath (xeval : Str → List Elem) (xp : Str) : List Elem :=
  match xeval xp with
  | [] => xeval (xpath_without_tbody xp)
  | nodes => nodes

/-- `MEAL_XPATHS_A` (src/app.py lines 17-21). -/
def MEAL_XPATHS_A : List (Str × Str) :=
  [ ((("조식").data), (("//*[@id=\"contents\"]/div/div[2]/table/tbody/tr[1]/td").data)),
    ((("중식").data), (("//*[@id=\"contents\"]/div/div[2]/table/tbody/tr[2]/td").data)),
    ((("석식").data), (("//*[@id=\"contents\"]/div/div[2]/table/tbody/tr[3]/td").data)) ]

/-- Python `dict` with string keys, in insertion order. -/
def keysOf {α : Type} (d : List (Str × α)) : List Str :=
  d.map Prod.fst

/-- `d[k]` lookup (keys are unique in every dict this program builds,
so first match suffices). -/
def lookupA {α : Type} (k : Str) : List (Str × α) → Option α
  | [] => none
  | (k2, v) :: rest => if k2 = k then some v else lookupA k rest

/-- `d[k] = v` for a key already present: replace in place, preserving
insertion order. -/
def updateA {α : Type} (k : Str) (v : α) : List (Str × α) → List (Str × α)
  | [] => []
  | (k2, v2) :: rest =>
    if k2 = k then (k, v) :: updateA k v rest else (k2, v2) :: updateA k v rest

/-- `d.get(k, dflt)`. -/
def getD {α : Type} (d : List (Str × α)) (k : Str) (dflt : α) : α :=
  match lookupA k d with
  | some v => v
  | none => dflt

/-- The parsing loop of `parse_page_a` (src/app.py lines 86-97), after
the page has been fetched and parsed into the tree behind `xeval`: for
each configured slot, locate the cells and collect every cell's lines. -/
def parse_page_a_core (xeval : Str → List Elem) : List (Str × List Str) :=
  MEAL_XPATHS_A.map
    (fun p => (p.1, (extract_by_xpath xeval p.2).flatMap extract_td_lines_preserve_br))

/-- `B_MEAL_KEYS` (src/app.py line 115). -/
def B_MEAL_KEYS : List Str :=
  [(("아침").data), (("점심").data), (("저녁").data)]

/-- `tr.xpath("./th")`: the element children tagged `th` (lxml's HTML
parser lowercases tags). -/
def thsOf (tr : Elem) : List Elem :=
  tr.children.filter (fun c => decide (c.tag = some (("th").data)))

/-- `tr.xpath("./td")`. -/
def tdsOf (tr : Elem) : List Elem :=
  tr.children.filter (fun c => decide (c.tag = some (("td").data)))

/-- The normalized label a row offers, or `none` when the row lacks a
`th` or a `td` cell and is skipped outright (src/app.py lines 234-239). -/
def rowLabel (tr : Elem) : Option Str :=
  match thsOf tr, tdsOf tr with
  | th0 :: _, _ :: _ => some (normalize_space (textContent th0))
  | _, _ => none

/-- The line list a recognized row stores: its first `td` assembled,
cleaned up and first-line-stripped (src/app.py lines 243-247). -/
def rowLines (tr : Elem) : List Str :=
  match tdsOf tr with
  | td0 :: _ => drop_meaningless_first_line (cleanupLines (extract_text_preserve_br td0))
  | [] => []

/-- One iteration of the row loop of `parse_page_b` (src/app.py lines
233-249): skip rows without both cells (`rowLabel` is then `none`),
skip labels not already keys of `out`, store the processed lines of the
first `td` otherwise. -/
def processRow (out : List (Str × List Str)) (tr : Elem) : List (Str × List Str) :=
  match rowLabel tr with
  | none => out
  | some key =>
    match lookupA key out with
    | none => out
    | some _ => updateA key (rowLines tr) out

/-- `out = {k: [] for k in B_MEAL_KEYS}` (src/app.py line 231). -/
def bInitOut : List (Str × List Str) :=
  B_MEAL_KEYS.map (fun k => (k, []))

/-- The meals mapping `parse_page_b` builds from the rows of the
resolved table (src/app.py lines 231-249); the surrounding day-div /
heading / table location steps either succeed (yielding these rows) or
raise, and are outside this claim set's scope. -/
def parse_page_b_core (rows : List Elem) : List (Str × List Str) :=
  rows.foldl processRow bInitOut

/-- `DAY_TO_DIV_ID` (src/app.py lines 105-113). -/
def DAY_TO_DIV_ID : List (Str × Str) :=
  [ ((("mon").data), (("mon_list").data)),
    ((("tue").data), (("tue_list").data)),
    ((("wed").data), (("wed_list").data)),
    ((("thu").data), (("thu_list").data)),
    ((("fri").data), (("fri_list").data)),
    ((("sat").data), (("sat_list").data)),
    ((("sun").data), (("sun_list").data)) ]

/-- `day in DAY_TO_DIV_ID` (src/app.py line 310). -/
def dayKnown (d : Str) : Bool :=
  (lookupA d DAY_TO_DIV_ID).isSome

/-- The meal names accepted by the `/meals-a` filter (src/app.py line
294). -/
def A_MEAL_NAMES : List Str :=
  [(("조식").data), (("중식").data), (("석식").data)]

/-- Outcome of a `/meals-a` request.  `queryError` is FastAPI's 422 for
a `Query(ge/le)` bound violation, `dateError` / `filterError` the
handler's 400s; the two `ok` forms carry the JSON payload fields. -/
inductive ARespM : Type where
  | queryError : ARespM
  | dateError : ARespM
  | filterError : ARespM
  | okFull : Str → List (Str × List Str) → ARespM
  | okOne : Str → Str → List Str → ARespM
deriving DecidableEq

/-- The `Query(..., ge=..., le=...)` bounds of `/meals-a` (src/app.py
lines 272-274), validated by FastAPI before the handler body runs. -/
def aParamsOk (y m d : Int) : Bool :=
  decide (2000 ≤ y) && decide (y ≤ 2100)
  && decide (1 ≤ m) && decide (m ≤ 12)
  && decide (1 ≤ d) && decide (d ≤ 31)

/-- `get_meals_a` (src/app.py lines 270-301) with the network step made
explicit: the second component records whether the upstream fetch
(`parse_page_a`, line 284) was performed, and `data` stands for the
mapping that fetch returned (the success case; transport failures are
orthogonal to the claims below).  Note the handler validates the `meal`
filter only after the fetch. -/
def get_meals_a_model (y m d : Int) (meal : Option Str)
    (data : List (Str × List Str)) : ARespM × Bool :=
  if aParamsOk y m d then
    if isValidDate y.toNat m.toNat d.toNat then
      -- fetch + parse happen here (line 284)
      match meal with
      | none =>
        (ARespM.okFull (formatDate y.toNat m.toNat d.toNat)
          (A_MEAL_NAMES.map (fun k => (k, getD data k []))), true)
      | some mv0 =>
        let mv := stripChars mv0
        if decide (mv ∈ A_MEAL_NAMES) then
          (ARespM.okOne (formatDate y.toNat m.toNat d.toNat) mv (getD data mv []), true)
        else (ARespM.filterError, true)
    else (ARespM.dateError, false)
  else (ARespM.queryError, false)

/-- Outcome of a `/meals-b` request: the 400 with its detail string, or
the payload's `day`, `date`, `meals` fields plus whether the all-empty
`note` is attached. -/
inductive BRespM : Type where
  | dayError : Str → BRespM
  | okB : Str → Option Str → List (Str × List Str) → Bool → BRespM
deriving DecidableEq

/-- The 400 detail of `/meals-b` (src/app.py line 311). -/
def bDayErrDetail : Str :=
  ("day must be one of: mon, tue, wed, thu, fri, sat, sun").data

/-- `get_meals_b` (src/app.py lines 305-338) with the network step made
explicit, as in `get_meals_a_model`: `parsed_date` and `meals` stand
for what `parse_page_b` returned when the fetch happened. -/
def get_meals_b_model (day0 : Str) (parsed_date : Option Str)
    (meals : List (Str × List Str)) : BRespM × Bool :=
  let day := asciiLower (stripChars day0)
  if dayKnown day then
    let ms := B_MEAL_KEYS.map (fun k => (k, getD meals k []))
    (BRespM.okB day parsed_date ms (ms.all (fun p => p.2.isEmpty)), true)
  else (BRespM.dayError bDayErrDetail, false)

/-- The echoed `day` field of a `/meals-b` payload. -/
def bRespDay : BRespM → Option Str
  | BRespM.okB d _ _ _ => some d
  | BRespM.dayError _ => none

/-- Fixture: a labelled `점심` row whose cell reads `밥`, for the
duplicate-label scenario. -/
def sampleRowLunchA : Elem :=
  Elem.mk (some (("tr").data)) none
    [Elem.mk (some (("th").data)) (some (("점심").data)) [] none,
     Elem.mk (some (("td").data)) (some (("밥").data)) [] none] none

/-- Fixture: a second `점심` row whose cell reads `국수`. -/
def sampleRowLunchB : Elem :=
  Elem.mk (some (("tr").data)) none
    [Elem.mk (some (("th").data)) (some (("점심").data)) [] none,
     Elem.mk (some (("td").data)) (some (("국수").data)) [] none] none

/-! ### Helper lemmas -/

theorem containsSub_nil_pat (l : Str) : containsSub [] l = true := by
  cases l <;> simp [containsSub, startsW]

theorem startsW_self_append (s r : Str) : startsW s (s ++ r) = true := by
  induction s with
  | nil => simp [startsW]
  | cons c cs ih => simp [startsW, ih]

theorem containsSub_self_append (s u : Str) : containsSub s (s ++ u) = true := by
  cases s with
  | nil => exact containsSub_nil_pat u
  | cons c cs =>
    have h := startsW_self_append (c :: cs) u
    simp only [List.cons_append] at h ⊢
    simp [containsSub, h]

theorem containsSub_cons_of (pat l : Str) (c : Char) (h : containsSub pat l = true) :
    containsSub pat (c :: l) = true := by
  simp [containsSub, h]

theorem containsSub_of_infix (pat l : Str) (h : pat <:+: l) : containsSub pat l = true := by
  obtain ⟨t, u, rfl⟩ := h
  induction t with
  | nil => simpa using containsSub_self_append pat u
  | cons c cs ih =>
    simp only [List.cons_append]
    exact containsSub_cons_of _ _ _ ih

theorem containsSub_flatten_of_mem (s : Str) (L : List Str) (h : s ∈ L) :
    containsSub s L.flatten = true :=
  containsSub_of_infix s _ (List.infix_of_mem_flatten h)

theorem mem_childParts_text (c : Elem) (s : Str) (h : c.text = some s) (hne : s ≠ []) :
    s ∈ childParts c := by
  simp [childParts, optPart, h, hne]

theorem mem_childParts_tail (c : Elem) (s : Str) (h : c.tail = some s) (hne : s ≠ []) :
    s ∈ childParts c := by
  simp [childParts, optPart, h, hne]

theorem mem_mixedParts_of_child (td c : Elem) (s : Str) (hc : c ∈ td.children)
    (hs : s ∈ childParts c) : s ∈ mixedParts td := by
  simp only [mixedParts, List.mem_append]
  exact Or.inr (List.mem_flatMap.mpr ⟨c, hc, hs⟩)

theorem keysOf_updateA {α : Type} (k : Str) (v : α) :
    ∀ (d : List (Str × α)), keysOf (updateA k v d) = keysOf d
  | [] => rfl
  | (k2, v2) :: rest => by
    have ih := keysOf_updateA k v rest
    simp only [keysOf] at ih ⊢
    by_cases h : k2 = k
    · simp [updateA, if_pos h, ih, h]
    · simp [updateA, if_neg h, ih]

theorem lookupA_eq_none_of_not_mem {α : Type} (k : Str) :
    ∀ (d : List (Str × α)), k ∉ keysOf d → lookupA k d = none
  | [], _ => rfl
  | (k2, v2) :: rest, h => by
    simp only [keysOf, List.map_cons, List.mem_cons, not_or] at h
    obtain ⟨h1, h2⟩ := h
    have hne : ¬ k2 = k := fun hh => h1 hh.symm
    simp only [lookupA, if_neg hne]
    exact lookupA_eq_none_of_not_mem k rest h2

theorem lookupA_isSome_of_mem {α : Type} (k : Str) :
    ∀ (d : List (Str × α)), k ∈ keysOf d → ∃ v, lookupA k d = some v
  | [], h => absurd h (by simp [keysOf])
  | (k2, v) :: rest, h => by
    by_cases hk : k2 = k
    · exact ⟨v, by simp [lookupA, hk]⟩
    · have hmem : k ∈ keysOf rest := by
        simp only [keysOf, List.map_cons, List.mem_cons] at h
        rcases h with h | h
        · exact absurd h.symm hk
        · exact h
      obtain ⟨w, hw⟩ := lookupA_isSome_of_mem k rest hmem
      exact ⟨w, by simp [lookupA, hk, hw]⟩

theorem lookupA_updateA_self {α : Type} (k : Str) (v : α) :
    ∀ (d : List (Str × α)) (w : α), lookupA k d = some w → lookupA k (updateA k v d) = some v
  | [], w, h => by simp [lookupA] at h
  | (k2, w2) :: rest, w, h => by
    by_cases hk : k2 = k
    · simp [updateA, lookupA, hk]
    · simp only [lookupA, if_neg hk] at h
      simp only [updateA, if_neg hk, lookupA, if_neg hk]
      exact lookupA_updateA_self k v rest w h

theorem lookupA_updateA_ne {α : Type} (k k2 : Str) (v : α) (hne : k2 ≠ k) :
    ∀ (d : List (Str × α)), lookupA k (updateA k2 v d) = lookupA k d
  | [] => rfl
  | (k3, w) :: rest => by
    by_cases h3 : k3 = k2
    · have hk3 : ¬ k3 = k := fun hh => hne (h3.symm.trans hh)
      simp only [updateA, if_pos h3, lookupA, if_neg hne, if_neg hk3]
      exact lookupA_updateA_ne k k2 v hne rest
    · by_cases h4 : k3 = k
      · simp only [updateA, if_neg h3, lookupA, if_pos h4]
      · simp only [updateA, if_neg h3, lookupA, if_neg h4]
        exact lookupA_updateA_ne k k2 v hne rest

theorem processRow_keys (out : List (Str × List Str)) (tr : Elem) :
    keysOf (processRow out tr) = keysOf out := by
  cases h : rowLabel tr with
  | none => simp [processRow, h]
  | some key =>
    cases h2 : lookupA key out with
    | none => simp [processRow, h, h2]
    | some v => simp [processRow, h, h2, keysOf_updateA]

theorem foldl_processRow_keys :
    ∀ (rows : List Elem) (out : List (Str × List Str)),
      keysOf (rows.foldl processRow out) = keysOf out
  | [], _ => rfl
  | tr :: rest, out => by
    simp only [List.foldl_cons]
    rw [foldl_processRow_keys rest (processRow out tr), processRow_keys]

theorem lookupA_processRow_ne (out : List (Str × List Str)) (tr : Elem) (k : Str)
    (h : rowLabel tr ≠ some k) : lookupA k (processRow out tr) = lookupA k out := by
  cases hl : rowLabel tr with
  | none => simp [processRow, hl]
  | some k2 =>
    have hne : k2 ≠ k := fun he => h (by rw [hl, he])
    cases h2 : lookupA k2 out with
    | none => simp [processRow, hl, h2]
    | some w =>
      simp only [processRow, hl, h2]
      exact lookupA_updateA_ne k k2 _ hne out

theorem lookupA_foldl_of_no_label (k : Str) :
    ∀ (rows : List Elem) (out : List (Str × List Str)),
      (∀ tr ∈ rows, rowLabel tr ≠ some k) →
      lookupA k (rows.foldl processRow out) = lookupA k out
  | [], _, _ => rfl
  | tr :: rest, out, h => by
    simp only [List.foldl_cons]
    rw [lookupA_foldl_of_no_label k rest _ (fun tr2 htr2 => h tr2 (List.mem_cons_of_mem _ htr2)),
        lookupA_processRow_ne out tr k (h tr (List.mem_cons_self _ _))]

/-! ### Claims -/

/-- C2 (corrected): the Line Post-Processor is idempotent exactly when
the list does not begin with two consecutive whole-line time-range
matches; on a list of at most one line a second application never
changes anything, and on longer lists `f (f l) = f l` holds iff the
first two lines are not both time ranges (when they are, the second
application also strips the second one). -/
theorem C2_line_post_processor_idempotent_iff :
    ∀ (l : List Str) (a b : Str) (rest : List Str),
      (l.length ≤ 1 →
        drop_meaningless_first_line (drop_meaningless_first_line l) =
          drop_meaningless_first_line l) ∧
      (drop_meaningless_first_line (drop_meaningless_first_line (a :: b :: rest)) =
          drop_meaningless_first_line (a :: b :: rest) ↔
        (matchesTimeRange a = false ∨ matchesTimeRange b = false)) := by
  intro l a b rest
  constructor
  · intro hlen
    rcases l with _ | ⟨x, _ | ⟨y, tl⟩⟩
    · rfl
    · cases hm : matchesTimeRange x <;> simp [drop_meaningless_first_line, hm]
    · simp at hlen
  · cases hma : matchesTimeRange a
    · simp [drop_meaningless_first_line, hma]
    · cases hmb : matchesTimeRange b
      · simp [drop_meaningless_first_line, hma, hmb]
      · have h1 : drop_meaningless_first_line (a :: b :: rest) = b :: rest := by
          simp [drop_meaningless_first_line, hma]
        have h2 : drop_meaningless_first_line (b :: rest) = rest := by
          simp [drop_meaningless_first_line, hmb]
        rw [h1, h2]
        apply iff_of_false
        · intro h
          exact absurd h.symm (List.cons_ne_self b rest)
        · rintro (h | h) <;> simp at h

/-- C2 counterexample: a list starting with two whole-line time ranges
is stripped again by the second application, so idempotence fails as
stated. -/
theorem C2_idempotence_counterexample :
    drop_meaningless_first_line (drop_meaningless_first_line
        [(("11:00~14:00").data), (("12:00~13:00").data)]) ≠
      drop_meaningless_first_line [(("11:00~14:00").data), (("12:00~13:00").data)] := by
  decide

/-- C2 witness: the amended theorem applied at a concrete list whose
lines are not time ranges. -/
theorem C2_witness :
    drop_meaningless_first_line (drop_meaningless_first_line
        [(("김치").data), (("밥").data)]) =
      drop_meaningless_first_line [(("김치").data), (("밥").data)] :=
  (C2_line_post_processor_idempotent_iff [] (("김치").data) (("밥").data) []).2.mpr
    (Or.inl (by decide))

/-- C5: the Line Post-Processor removes the first line iff that entire
line matches the time-range shape; a first line with trailing extra
text is kept, removal only ever drops the head (the result is the input
or its tail), the empty list is unchanged, and the shape accepts
bracketed, bare and spaced time ranges. -/
theorem C5_strip_iff_whole_line_time_range :
    ∀ (first : Str) (rest lines : List Str),
      (drop_meaningless_first_line [] = []) ∧
      (matchesTimeRange first = true →
        drop_meaningless_first_line (first :: rest) = rest) ∧
      (matchesTimeRange first = false →
        drop_meaningless_first_line (first :: rest) = first :: rest) ∧
      (drop_meaningless_first_line lines = lines ∨
        drop_meaningless_first_line lines = lines.tail) ∧
      (drop_meaningless_first_line ((("11:00-14:00 안내").data) :: rest) =
        (("11:00-14:00 안내").data) :: rest) ∧
      (matchesTimeRange (("[11:00~14:00]").data) = true) ∧
      (matchesTimeRange (("11:00~14:00").data) = true) ∧
      (matchesTimeRange ((" ( 9:05 ~ 10:00 ) ").data) = true) ∧
      (matchesTimeRange (("11:00~14:00 안내").data) = false) := by
  intro first rest lines
  refine ⟨rfl, ?_, ?_, ?_, ?_, by decide, by decide, by decide, by decide⟩
  · intro h; simp [drop_meaningless_first_line, h]
  · intro h; simp [drop_meaningless_first_line, h]
  · rcases lines with _ | ⟨x, tl⟩
    · exact Or.inl rfl
    · cases hm : matchesTimeRange x
      · exact Or.inl (by simp [drop_meaningless_first_line, hm])
      · exact Or.inr (by simp [drop_meaningless_first_line, hm])
  · have hx : matchesTimeRange (("11:00-14:00 안내").data) = false := by decide
    simp [drop_meaningless_first_line, hx]

/-- C5 witness: the stripping direction applied at a concrete list
headed by an exact time-range line. -/
theorem C5_witness :
    drop_meaningless_first_line [(("11:00~14:00").data), (("밥").data)] = [(("밥").data)] :=
  (C5_strip_iff_whole_line_time_range (("11:00~14:00").data) [(("밥").data)] []).2.1
    (by decide)

/-- C6: the Node Locator evaluates the primary expression first and
keeps its result when non-empty; only a zero-match primary (as happens
when the tree lacks the `tbody` wrapper) falls back to the relaxed
expression with every `/tbody` segment removed, so the result then
equals evaluating the relaxed expression directly; if both match
nothing the result is the empty list, not an error; and `/tbody`
removal on the configured slot expression yields its relaxed form. -/
theorem C6_node_locator_fallback :
    ∀ (xeval : Str → List Elem) (xp : Str),
      (xeval xp ≠ [] → extract_by_xpath xeval xp = xeval xp) ∧
      (xeval xp = [] → extract_by_xpath xeval xp = xeval (xpath_without_tbody xp)) ∧
      (xeval xp = [] → xeval (xpath_without_tbody xp) = [] →
        extract_by_xpath xeval xp = []) ∧
      (xpath_without_tbody (("//*[@id=\"contents\"]/div/div[2]/table/tbody/tr[1]/td").data) =
        (("//*[@id=\"contents\"]/div/div[2]/table/tr[1]/td").data)) := by
  intro xeval xp
  refine ⟨?_, ?_, ?_, by decide⟩
  · intro h
    unfold extract_by_xpath
    cases hx : xeval xp with
    | nil => exact absurd hx h
    | cons n ns => rfl
  · intro h
    unfold extract_by_xpath
    rw [h]
  · intro h h2
    unfold extract_by_xpath
    rw [h]
    exact h2

/-- C6 witness: the double-miss case applied at a concrete evaluator
that matches nothing. -/
theorem C6_witness :
    extract_by_xpath (fun _ => ([] : List Elem)) (("//x/tbody/y").data) = [] :=
  (C6_node_locator_fallback (fun _ => ([] : List Elem)) (("//x/tbody/y").data)).2.2.1 rfl rfl

/-- C7: date extraction round-trips the sample heading to
`"2025-12-22"`, returns `none` when the pattern is absent or the
matched triple is calendar-invalid, and in general every heading either
yields `none` or the zero-padded rendering of a calendar-valid matched
triple (the function is total: no exception escapes). -/
theorem C7_heading_date_extraction :
    ∀ (s : Str),
      (parse_b_date_from_h3 (("교직원 식당 ( 2025년 12월 22일 ) 월요일").data) =
        some (("2025-12-22").data)) ∧
      (parse_b_date_from_h3 (("교직원 식당 월요일").data) = none) ∧
      (parse_b_date_from_h3 (("2025년 2월 30일").data) = none) ∧
      (searchKoreanDate s = none → parse_b_date_from_h3 s = none) ∧
      (∀ y m d, searchKoreanDate s = some (y, m, d) → isValidDate y m d = false →
        parse_b_date_from_h3 s = none) ∧
      (∀ y m d, searchKoreanDate s = some (y, m, d) → isValidDate y m d = true →
        parse_b_date_from_h3 s = some (formatDate y m d)) := by
  intro s
  refine ⟨by decide, by decide, by decide, ?_, ?_, ?_⟩
  · intro h; simp [parse_b_date_from_h3, h]
  · intro y m d h hv; simp [parse_b_date_from_h3, h, hv]
  · intro y m d h hv; simp [parse_b_date_from_h3, h, hv]

/-- C7 witness: the pattern-absent direction applied at a concrete
heading with no date. -/
theorem C7_witness : parse_b_date_from_h3 (("hello").data) = none :=
  (C7_heading_date_extraction (("hello").data)).2.2.2.1 (by decide)

/-- C3: for every element carrying text `A`, one line-break child with
tail text `B` — whatever the element's tag and tail and the break's own
children — the Text Assembler returns exactly `["A", "B"]`; with two
consecutive break children it still returns `["A", "B"]` with no blank
middle entry; and an element with no children and no text yields `[]`. -/
theorem C3_text_assembler_br_lines :
    ∀ (tg tl tl2 : Option Str) (cs cs2 : List Elem),
      extract_td_lines_preserve_br
          (Elem.mk tg (some (("A").data))
            [Elem.mk (some (("br").data)) none cs (some (("B").data))] tl) =
        [(("A").data), (("B").data)] ∧
      extract_td_lines_preserve_br
          (Elem.mk tg (some (("A").data))
            [Elem.mk (some (("br").data)) none cs none,
             Elem.mk (some (("br").data)) none cs2 (some (("B").data))] tl) =
        [(("A").data), (("B").data)] ∧
      extract_td_lines_preserve_br (Elem.mk tg none [] tl2) = [] := by
  intro tg tl tl2 cs cs2
  exact ⟨rfl, rfl, rfl⟩

/-- C4: non-loss — for every element, each direct child's own text and
tail text occur contiguously in the assembled (joined) text the line
split works on; and concretely, an element whose only textual content
is the tail of a line-break child emits exactly that tail text. -/
theorem C4_text_assembler_non_loss :
    ∀ (td c : Elem), c ∈ td.children →
      (∀ s, c.text = some s → containsSub s ((mixedParts td).flatten) = true) ∧
      (∀ s, c.tail = some s → containsSub s ((mixedParts td).flatten) = true) ∧
      extract_td_lines_preserve_br
          (Elem.mk (some (("td").data)) none
            [Elem.mk (some (("br").data)) none [] (some (("tail-text").data))] none) =
        [(("tail-text").data)] := by
  intro td c hc
  refine ⟨?_, ?_, rfl⟩
  · intro s hs
    by_cases hne : s = []
    · subst hne
      exact containsSub_nil_pat _
    · exact containsSub_flatten_of_mem s _
        (mem_mixedParts_of_child td c s hc (mem_childParts_text c s hs hne))
  · intro s hs
    by_cases hne : s = []
    · subst hne
      exact containsSub_nil_pat _
    · exact containsSub_flatten_of_mem s _
        (mem_mixedParts_of_child td c s hc (mem_childParts_tail c s hs hne))

/-- C4 witness: the tail-capture direction applied at the concrete
`br`-with-tail element. -/
theorem C4_witness :
    containsSub (("tail-text").data)
      ((mixedParts (Elem.mk (some (("td").data)) none
          [Elem.mk (some (("br").data)) none [] (some (("tail-text").data))] none)).flatten) =
      true :=
  (C4_text_assembler_non_loss
      (Elem.mk (some (("td").data)) none
        [Elem.mk (some (("br").data)) none [] (some (("tail-text").data))] none)
      (Elem.mk (some (("br").data)) none [] (some (("tail-text").data)))
      (by simp [Elem.children])).2.1 _ rfl

/-- C8: both parsers emit every configured slot name as a key — source
1 always maps 조식/중식/석식 and source 2 always maps 아침/점심/저녁 —
and a slot whose selectors match nothing (resp. for which no table row
carries its label) is bound to the empty list, never absent and never
an error. -/
theorem C8_all_slots_present :
    ∀ (xeval : Str → List Elem) (rows : List Elem),
      keysOf (parse_page_a_core xeval) =
        [(("조식").data), (("중식").data), (("석식").data)] ∧
      keysOf (parse_page_b_core rows) = B_MEAL_KEYS ∧
      (∀ nm xp, (nm, xp) ∈ MEAL_XPATHS_A → xeval xp = [] →
        xeval (xpath_without_tbody xp) = [] →
        lookupA nm (parse_page_a_core xeval) = some []) ∧
      (∀ k, k ∈ B_MEAL_KEYS → (∀ tr ∈ rows, rowLabel tr ≠ some k) →
        lookupA k (parse_page_b_core rows) = some []) := by
  intro xeval rows
  refine ⟨rfl, ?_, ?_, ?_⟩
  · unfold parse_page_b_core
    exact foldl_processRow_keys rows bInitOut
  · intro nm xp hmem h1 h2
    have hext : extract_by_xpath xeval xp = [] := by
      unfold extract_by_xpath
      rw [h1]
      exact h2
    simp only [MEAL_XPATHS_A, List.mem_cons, List.not_mem_nil, or_false,
      Prod.mk.injEq] at hmem
    rcases hmem with ⟨rfl, rfl⟩ | ⟨rfl, rfl⟩ | ⟨rfl, rfl⟩
    · have hl : lookupA (("조식").data) (parse_page_a_core xeval) =
          some ((extract_by_xpath xeval
            (("//*[@id=\"contents\"]/div/div[2]/table/tbody/tr[1]/td").data)).flatMap
              extract_td_lines_preserve_br) := rfl
      rw [hl, hext]
      rfl
    · have hl : lookupA (("중식").data) (parse_page_a_core xeval) =
          some ((extract_by_xpath xeval
            (("//*[@id=\"contents\"]/div/div[2]/table/tbody/tr[2]/td").data)).flatMap
              extract_td_lines_preserve_br) := rfl
      rw [hl, hext]
      rfl
    · have hl : lookupA (("석식").data) (parse_page_a_core xeval) =
          some ((extract_by_xpath xeval
            (("//*[@id=\"contents\"]/div/div[2]/table/tbody/tr[3]/td").data)).flatMap
              extract_td_lines_preserve_br) := rfl
      rw [hl, hext]
      rfl
  · intro k hk hno
    unfold parse_page_b_core
    rw [lookupA_foldl_of_no_label k rows bInitOut hno]
    simp only [B_MEAL_KEYS, List.mem_cons, List.not_mem_nil, or_false] at hk
    rcases hk with rfl | rfl | rfl <;> rfl

/-- C8 witness: the no-matching-row case applied at the empty row list
for the `아침` slot. -/
theorem C8_witness :
    lookupA (("아침").data) (parse_page_b_core []) = some [] :=
  (C8_all_slots_present (fun _ => []) []).2.2.2 (("아침").data) (by decide)
    (fun tr htr => absurd htr (List.not_mem_nil tr))

/-- C9: a row whose label cell is missing or whose normalized label is
not a known slot name leaves the mapping untouched, and when two rows
carry the same recognized label and no later row does, the stored value
is the one computed from the last such row (last-seen-row wins). -/
theorem C9_section_resolver_rows :
    ∀ (pre post : List Elem) (tr : Elem) (k : Str),
      ((rowLabel tr = none ∨ (∃ k2, rowLabel tr = some k2 ∧ k2 ∉ B_MEAL_KEYS)) →
        parse_page_b_core (pre ++ tr :: post) = parse_page_b_core (pre ++ post)) ∧
      (rowLabel tr = some k → k ∈ B_MEAL_KEYS →
        (∀ tr2 ∈ post, rowLabel tr2 ≠ some k) →
        lookupA k (parse_page_b_core (pre ++ tr :: post)) = some (rowLines tr)) := by
  intro pre post tr k
  constructor
  · intro h
    unfold parse_page_b_core
    have hskip : processRow (List.foldl processRow bInitOut pre) tr =
        List.foldl processRow bInitOut pre := by
      rcases h with h | ⟨k2, hl, hnk⟩
      · simp [processRow, h]
      · have hnone : lookupA k2 (List.foldl processRow bInitOut pre) = none := by
          apply lookupA_eq_none_of_not_mem
          rw [foldl_processRow_keys]
          exact hnk
        simp [processRow, hl, hnone]
    rw [List.foldl_append, List.foldl_append, List.foldl_cons, hskip]
  · intro hl hk hno
    unfold parse_page_b_core
    rw [List.foldl_append, List.foldl_cons,
      lookupA_foldl_of_no_label k post _ hno]
    have hkeys : k ∈ keysOf (List.foldl processRow bInitOut pre) := by
      rw [foldl_processRow_keys]
      exact hk
    obtain ⟨v, hv⟩ := lookupA_isSome_of_mem k _ hkeys
    have hupd : processRow (List.foldl processRow bInitOut pre) tr =
        updateA k (rowLines tr) (List.foldl processRow bInitOut pre) := by
      simp [processRow, hl, hv]
    rw [hupd]
    exact lookupA_updateA_self k (rowLines tr) _ v hv

/-- C1 counterexample: a date-valid request carrying the unknown meal
filter `간식` is answered with the client error, but only after the
upstream fetch was performed (the fetched flag is `true`), refuting the
claim that an unknown meal filter never triggers an upstream fetch. -/
theorem C1_counterexample :
    (get_meals_a_model 2025 3 1 (some (("간식").data)) []).2 = true ∧
    (get_meals_a_model 2025 3 1 (some (("간식").data)) []).1 = ARespM.filterError := by
  decide

/-- C1 (corrected): the date-triple conditions — out-of-range or
calendar-impossible (year, month, day), in particular `month=13` — and
the unknown weekday token are rejected with a client error before any
fetch; the unknown meal-slot filter is also rejected with a client
error, but only after the upstream fetch has been performed. -/
theorem C1_input_validation :
    ∀ (y m d : Int) (meal : Option Str) (mv s : Str)
      (data pm : List (Str × List Str)) (pd : Option Str),
      (aParamsOk y m d = false →
        get_meals_a_model y m d meal data = (ARespM.queryError, false)) ∧
      (aParamsOk y m d = true → isValidDate y.toNat m.toNat d.toNat = false →
        get_meals_a_model y m d meal data = (ARespM.dateError, false)) ∧
      ((get_meals_a_model 2025 13 1 meal data).2 = false) ∧
      (dayKnown (asciiLower (stripChars s)) = false →
        get_meals_b_model s pd pm = (BRespM.dayError bDayErrDetail, false)) ∧
      (aParamsOk y m d = true → isValidDate y.toNat m.toNat d.toNat = true →
        decide (stripChars mv ∈ A_MEAL_NAMES) = false →
        get_meals_a_model y m d (some mv) data = (ARespM.filterError, true)) := by
  intro y m d meal mv s data pm pd
  refine ⟨?_, ?_, ?_, ?_, ?_⟩
  · intro h1
    simp [get_meals_a_model, h1]
  · intro h1 h2
    simp [get_meals_a_model, h1, h2]
  · have h13 : aParamsOk 2025 13 1 = false := by decide
    simp [get_meals_a_model, h13]
  · intro h1
    simp [get_meals_b_model, h1]
  · intro h1 h2 h3
    simp [get_meals_a_model, h1, h2, h3]

/-- C1 witness: the out-of-range branch applied at `month=13`. -/
theorem C1_witness :
    get_meals_a_model 2025 13 1 none [] = (ARespM.queryError, false) :=
  (C1_input_validation 2025 13 1 none [] [] [] [] none).1 (by decide)

/-- C10: the weekday token is stripped and lowercased before
validation, so `" MON "` is accepted, fetched and echoed back as
`"mon"`; every normalized token outside the 7-value set is rejected
with the client error whose detail names all seven valid tokens, and no
fetch happens then. -/
theorem C10_weekday_token_normalization :
    ∀ (s : Str) (pd : Option Str) (pm : List (Str × List Str)),
      (bRespDay (get_meals_b_model ((" MON ").data) pd pm).1 = some (("mon").data)) ∧
      ((get_meals_b_model ((" MON ").data) pd pm).2 = true) ∧
      (dayKnown (asciiLower (stripChars s)) = true →
        bRespDay (get_meals_b_model s pd pm).1 = some (asciiLower (stripChars s))) ∧
      (dayKnown (asciiLower (stripChars s)) = false →
        get_meals_b_model s pd pm = (BRespM.dayError bDayErrDetail, false)) ∧
      (∀ t, t ∈ keysOf DAY_TO_DIV_ID → containsSub t bDayErrDetail = true) := by
  intro s pd pm
  refine ⟨rfl, rfl, ?_, ?_, ?_⟩
  · intro h
    simp [get_meals_b_model, h, bRespDay]
  · intro h
    simp [get_meals_b_model, h]
  · intro t ht
    have hall : (keysOf DAY_TO_DIV_ID).all
        (fun t2 => containsSub t2 bDayErrDetail) = true := by decide
    exact List.all_eq_true.mp hall t ht

/-- C10 witness: the rejection branch applied at the unknown token
`xyz`. -/
theorem C10_witness :
    get_meals_b_model (("xyz").data) none [] = (BRespM.dayError bDayErrDetail, false) :=
  (C10_weekday_token_normalization (("xyz").data) none []).2.2.2.1 (by decide)

/-- C9 witness: last-seen-row wins applied at two concrete `점심` rows;
the stored lines are those of the second row. -/
theorem C9_witness :
    lookupA (("점심").data) (parse_page_b_core [sampleRowLunchA, sampleRowLunchB]) =
      some [(("국수").data)] := by
  have h := (C9_section_resolver_rows [sampleRowLunchA] [] sampleRowLunchB
      (("점심").data)).2 (by decide) (by decide)
      (fun x hx => absurd hx (List.not_mem_nil x))
  exact h.trans (by decide)

end KnueMeal
